import Mathlib

/-!
Verification development for a voice-assistant webhook backend (src/app.py).

The backend is a set of ten FastAPI POST endpoints managing three
SQLite-backed tables (todos, reminders, calendar_events).  Each endpoint
scans the request's `toolCalls` list for the first entry whose function name
equals a fixed constant, parses that entry's arguments (a JSON object or a
JSON-encoded string), validates fields, performs one storage operation and
wraps the result in a response envelope.

The embedding below translates every handler of src/app.py into a pure Lean
function over an explicit store.  A raised `HTTPException` is modelled as an
`Except.error`; since every raise in the source happens before the session
commit, an error leaves the persistent store unchanged, which `runEndpoint`
makes explicit.
-/

namespace VoiceAssistant

/-- A JSON value, the model of Python values produced by `json.loads` and
of tool-call argument objects.  Numbers are restricted to integers, which
covers every value the handlers and the claims manipulate. -/
inductive Json where
  | null
  | bool (b : Bool)
  | num (n : Int)
  | str (s : String)
  | arr (elems : List Json)
  | obj (fields : List (String × Json))

/-- Python truthiness (`bool(v)`) of a JSON value: `None`, `False`, `0`,
`""`, `[]` and `{}` are falsy, everything else truthy. -/
def truthy : Json → Bool
  | .null => false
  | .bool b => b
  | .num n => n != 0
  | .str s => s != ""
  | .arr xs => !xs.isEmpty
  | .obj fs => !fs.isEmpty

/-- An argument object: a Python dict from field name to JSON value. -/
abbrev ArgsMap := List (String × Json)

/-- `a.get(k)` returning `none` when the key is absent (first binding wins). -/
def argLookup (a : ArgsMap) (k : String) : Option Json :=
  (a.find? (fun p => p.fst == k)).map (fun p => p.snd)

/-- Python `args.get(k, d)`: the bound value, or the default `d`. -/
def argGetD (a : ArgsMap) (k : String) (d : Json) : Json :=
  (argLookup a k).getD d

/- ### A model of `json.loads`

The JSON text parser.  This models the standard-library `json.loads` (out of
scope of the repository itself): recursive descent over the character list,
with a fuel parameter bounding the nesting depth. -/

/-- JSON whitespace. -/
def isWs (c : Char) : Bool :=
  c == ' ' || c == '\n' || c == '\t' || c == '\r'

/-- Drop leading JSON whitespace. -/
def skipWs : List Char → List Char
  | c :: cs => if isWs c then skipWs cs else c :: cs
  | [] => []

/-- The value of a hexadecimal digit. -/
def hexVal (c : Char) : Option Nat :=
  if '0' ≤ c && c ≤ '9' then some (c.toNat - 48)
  else if 'a' ≤ c && c ≤ 'f' then some (c.toNat - 87)
  else if 'A' ≤ c && c ≤ 'F' then some (c.toNat - 55)
  else none

/-- The value of a decimal digit run. -/
def digitsToNat (ds : List Char) : Nat :=
  ds.foldl (fun a c => a * 10 + (c.toNat - 48)) 0

/-- Parse the body of a JSON string literal (after the opening quote),
handling the escape sequences of RFC 8259. -/
def jstringChars (fuel : Nat) (cs : List Char) (acc : List Char) :
    Option (String × List Char) :=
  match fuel with
  | 0 => none
  | fuel + 1 =>
    match cs with
    | [] => none
    | '"' :: rest => some (String.mk acc.reverse, rest)
    | '\\' :: e :: rest =>
      match e with
      | '"' => jstringChars fuel rest ('"' :: acc)
      | '\\' => jstringChars fuel rest ('\\' :: acc)
      | '/' => jstringChars fuel rest ('/' :: acc)
      | 'n' => jstringChars fuel rest ('\n' :: acc)
      | 't' => jstringChars fuel rest ('\t' :: acc)
      | 'r' => jstringChars fuel rest ('\r' :: acc)
      | 'b' => jstringChars fuel rest (Char.ofNat 8 :: acc)
      | 'f' => jstringChars fuel rest (Char.ofNat 12 :: acc)
      | 'u' =>
        match rest with
        | h1 :: h2 :: h3 :: h4 :: rest2 =>
          match hexVal h1, hexVal h2, hexVal h3, hexVal h4 with
          | some a, some b, some c, some d =>
            jstringChars fuel rest2 (Char.ofNat (((a * 16 + b) * 16 + c) * 16 + d) :: acc)
          | _, _, _, _ => none
        | _ => none
      | _ => none
    | c :: rest => jstringChars fuel rest (c :: acc)

mutual

/-- Parse one JSON value, returning it with the unconsumed remainder. -/
def jvalue (fuel : Nat) (cs : List Char) : Option (Json × List Char) :=
  match fuel with
  | 0 => none
  | fuel + 1 =>
    match skipWs cs with
    | 'n' :: 'u' :: 'l' :: 'l' :: rest => some (.null, rest)
    | 't' :: 'r' :: 'u' :: 'e' :: rest => some (.bool true, rest)
    | 'f' :: 'a' :: 'l' :: 's' :: 'e' :: rest => some (.bool false, rest)
    | '"' :: rest => (jstringChars (rest.length + 1) rest []).map (fun p => (.str p.fst, p.snd))
    | '[' :: rest =>
      match skipWs rest with
      | ']' :: r => some (.arr [], r)
      | r => jelems fuel r []
    | '{' :: rest =>
      match skipWs rest with
      | '}' :: r => some (.obj [], r)
      | r => jmembers fuel r []
    | '-' :: rest =>
      match rest.span Char.isDigit with
      | ([], _) => none
      | (ds, rest2) =>
        match rest2 with
        | '.' :: _ => none
        | 'e' :: _ => none
        | 'E' :: _ => none
        | _ => some (.num (-(Int.ofNat (digitsToNat ds))), rest2)
    | c :: rest =>
      if c.isDigit then
        match (c :: rest).span Char.isDigit with
        | (ds, rest2) =>
          match rest2 with
          | '.' :: _ => none
          | 'e' :: _ => none
          | 'E' :: _ => none
          | _ => some (.num (Int.ofNat (digitsToNat ds)), rest2)
      else none
    | [] => none

/-- Parse the elements of a non-empty JSON array (after `[`). -/
def jelems (fuel : Nat) (cs : List Char) (acc : List Json) :
    Option (Json × List Char) :=
  match fuel with
  | 0 => none
  | fuel + 1 =>
    match jvalue fuel cs with
    | none => none
    | some (v, rest) =>
      match skipWs rest with
      | ',' :: rest2 => jelems fuel rest2 (v :: acc)
      | ']' :: rest2 => some (.arr (acc.reverse ++ [v]), rest2)
      | _ => none

/-- Parse the members of a non-empty JSON object (after `{`). -/
def jmembers (fuel : Nat) (cs : List Char) (acc : List (String × Json)) :
    Option (Json × List Char) :=
  match fuel with
  | 0 => none
  | fuel + 1 =>
    match skipWs cs with
    | '"' :: rest =>
      match jstringChars (rest.length + 1) rest [] with
      | none => none
      | some (k, rest2) =>
        match skipWs rest2 with
        | ':' :: rest3 =>
          match jvalue fuel rest3 with
          | none => none
          | some (v, rest4) =>
            match skipWs rest4 with
            | ',' :: rest5 => jmembers fuel rest5 ((k, v) :: acc)
            | '}' :: rest5 => some (.obj (acc.reverse ++ [(k, v)]), rest5)
            | _ => none
        | _ => none
    | _ => none

end

/-- `json.loads`: parse a complete JSON document; the whole input must be
consumed apart from surrounding whitespace. -/
def Json.parse (s : String) : Option Json :=
  match jvalue (s.length + 1) s.data with
  | some (v, rest) => if skipWs rest = [] then some v else none
  | none => none

/- ### A model of `datetime.datetime.fromisoformat` / `.isoformat()`

The standard-library datetime parsing used by `add_calendar_entry`.  The
model covers naive timestamps `YYYY-MM-DD[<sep>HH[:MM[:SS[.ffffff]]]]`
with any single separator character, validating calendar ranges; timezone
offsets are not modelled (no claim exercises them). -/

/-- A naive Python `datetime.datetime`. -/
structure PyDateTime where
  year : Nat
  month : Nat
  day : Nat
  hour : Nat
  minute : Nat
  second : Nat
  microsecond : Nat

/-- Gregorian leap year. -/
def isLeap (y : Nat) : Bool :=
  (y % 4 == 0 && y % 100 != 0) || y % 400 == 0

/-- Number of days in a month. -/
def daysInMonth (y m : Nat) : Nat :=
  if m == 2 then (if isLeap y then 29 else 28)
  else if m == 4 || m == 6 || m == 9 || m == 11 then 30
  else 31

/-- The value of a decimal digit character, or `none`. -/
def digitVal (c : Char) : Option Nat :=
  if c.isDigit then some (c.toNat - 48) else none

/-- Parse the time-of-day part `HH[:MM[:SS[.ffffff]]]` of an ISO string. -/
def parseTimePart (cs : List Char) : Option (Nat × Nat × Nat × Nat) :=
  match cs with
  | h1 :: h2 :: rest =>
    match digitVal h1, digitVal h2 with
    | some a, some b =>
      let hh := a * 10 + b
      if hh ≤ 23 then
        match rest with
        | [] => some (hh, 0, 0, 0)
        | ':' :: m1 :: m2 :: rest2 =>
          match digitVal m1, digitVal m2 with
          | some c, some d =>
            let mi := c * 10 + d
            if mi ≤ 59 then
              match rest2 with
              | [] => some (hh, mi, 0, 0)
              | ':' :: s1 :: s2 :: rest3 =>
                match digitVal s1, digitVal s2 with
                | some e, some f =>
                  let ss := e * 10 + f
                  if ss ≤ 59 then
                    match rest3 with
                    | [] => some (hh, mi, ss, 0)
                    | '.' :: frac =>
                      if frac ≠ [] && frac.length ≤ 6 && frac.all Char.isDigit then
                        some (hh, mi, ss, digitsToNat frac * 10 ^ (6 - frac.length))
                      else none
                    | _ => none
                  else none
                | _, _ => none
              | _ => none
            else none
          | _, _ => none
        | _ => none
      else none
    | _, _ => none
  | _ => none

/-- `datetime.fromisoformat`: parse an ISO-8601 timestamp string, `none`
when the string is malformed (Python raises `ValueError` there). -/
def parseIso (s : String) : Option PyDateTime :=
  match s.data with
  | y1 :: y2 :: y3 :: y4 :: '-' :: m1 :: m2 :: '-' :: d1 :: d2 :: rest =>
    match digitVal y1, digitVal y2, digitVal y3, digitVal y4 with
    | some a, some b, some c, some d =>
      match digitVal m1, digitVal m2, digitVal d1, digitVal d2 with
      | some e, some f, some g, some h =>
        let y := ((a * 10 + b) * 10 + c) * 10 + d
        let mo := e * 10 + f
        let da := g * 10 + h
        if 1 ≤ y && 1 ≤ mo && mo ≤ 12 && 1 ≤ da && da ≤ daysInMonth y mo then
          match rest with
          | [] => some ⟨y, mo, da, 0, 0, 0, 0⟩
          | _sep :: timeChars =>
            (parseTimePart timeChars).map
              (fun q => ⟨y, mo, da, q.fst, q.snd.fst, q.snd.snd.fst, q.snd.snd.snd⟩)
        else none
      | _, _, _, _ => none
    | _, _, _, _ => none
  | _ => none

/-- Left-pad a numeral with zeros to the given width. -/
def padNum (width n : Nat) : String :=
  let s := toString n
  String.mk (List.replicate (width - s.length) '0') ++ s

/-- `datetime.isoformat()`: render a naive datetime. -/
def isoString (t : PyDateTime) : String :=
  padNum 4 t.year ++ "-" ++ padNum 2 t.month ++ "-" ++ padNum 2 t.day ++ "T" ++
    padNum 2 t.hour ++ ":" ++ padNum 2 t.minute ++ ":" ++ padNum 2 t.second ++
    (if t.microsecond == 0 then "" else "." ++ padNum 6 t.microsecond)

/- ### The data model (src/app.py classes Todo, Reminder, CalendarEvent)

Row field values are stored as the JSON values the handlers received;
SQLite stores whatever Python value was assigned, and the handlers never
coerce.  `completed` is a genuine boolean column with default `False`. -/

/-- A row of the `todos` table. -/
structure TodoRow where
  id : Int
  title : Json
  description : Json
  completed : Bool

/-- A row of the `reminders` table. -/
structure ReminderRow where
  id : Int
  reminder_text : Json
  importance : Json

/-- A row of the `calendar_events` table. -/
structure EventRow where
  id : Int
  title : Json
  description : Json
  event_from : PyDateTime
  event_to : PyDateTime

/-- The persistent store: the three independent tables. -/
structure Store where
  todos : List TodoRow
  reminders : List ReminderRow
  events : List EventRow

/-- The store right after `Base.metadata.create_all`: three empty tables. -/
def emptyStore : Store := ⟨[], [], []⟩

/-- SQLite `INTEGER PRIMARY KEY` assignment: one more than the largest
id in the table (1 on an empty table). -/
def nextIdOf (ids : List Int) : Int :=
  ids.foldl max 0 + 1

/- ### The request envelope (pydantic models VapiRequest etc.) -/

/-- `ToolCallFunction.arguments : str | dict`. -/
inductive ArgVal where
  | argObj (a : ArgsMap)
  | argStr (s : String)

/-- A tool-call function: a name and its arguments. -/
structure ToolCallFunction where
  name : String
  arguments : ArgVal

/-- A tool call: an id and a function. -/
structure ToolCall where
  id : String
  function : ToolCallFunction

/-- The message wrapper holding the tool-call list. -/
structure Message where
  toolCalls : List ToolCall

/-- The inbound request envelope. -/
structure VapiRequest where
  message : Message

/-- An HTTP error response (`HTTPException(status_code, detail)`). -/
structure HttpError where
  status : Nat
  detail : String

/-- One entry of the response envelope's `results` list. -/
structure ToolCallResult where
  toolCallId : String
  result : Json

/-- The response envelope `{ "results": [...] }`. -/
structure VapiResponse where
  results : List ToolCallResult

/-- The singleton result envelope every handler builds literally. -/
def singleResult (tcid : String) (r : Json) : VapiResponse :=
  ⟨[⟨tcid, r⟩]⟩

/-- An unhandled Python exception (a `json.loads` failure, an `args.get`
on a non-dict, a `TypeError` from `fromisoformat`) surfaces as FastAPI's
500 response. -/
def internalError : HttpError := ⟨500, "Internal Server Error"⟩

/-- Obtain the argument object: `if isinstance(args, str): args = json.loads(args)`.
A string that is not valid JSON, or that decodes to a non-object, leads to
an unhandled exception in the source, modelled as `internalError`. -/
def getArgs : ArgVal → Except HttpError ArgsMap
  | .argObj a => .ok a
  | .argStr s =>
    match Json.parse s with
    | some (.obj a) => .ok a
    | some _ => .error internalError
    | none => .error internalError

/-- The `for tool_call in request.message.toolCalls: if name == c: ... break`
pattern of every handler: the first tool call with the expected name. -/
def findCall (name : String) (calls : List ToolCall) : Option ToolCall :=
  calls.find? (fun tc => tc.function.name == name)

/-- `Todo.id == todo_id` in a SQLAlchemy filter against the Python value
taken from the arguments: matches exactly when the value is that integer. -/
def idMatches (rowId : Int) : Json → Bool
  | .num n => rowId == n
  | _ => false

/-- Replace the first list element satisfying `p` by its image under `f`
(the SQLAlchemy `.first()` row update, then commit). -/
def updateFirst (p : α → Bool) (f : α → α) : List α → List α
  | [] => []
  | x :: xs => if p x then f x :: xs else x :: updateFirst p f xs

/-- Remove the first list element satisfying `p` (the `db.delete(row)` of the
`.first()` row, then commit). -/
def removeFirst (p : α → Bool) : List α → List α
  | [] => []
  | x :: xs => if p x then xs else x :: removeFirst p xs

/- ### Serialized entity forms (the pydantic Response models) -/

/-- `TodoResponse.from_orm(todo).dict()`. -/
def todoToJson (t : TodoRow) : Json :=
  .obj [("id", .num t.id), ("title", t.title), ("description", t.description),
        ("completed", .bool t.completed)]

/-- `ReminderResponse.from_orm(reminder).dict()`. -/
def reminderToJson (r : ReminderRow) : Json :=
  .obj [("id", .num r.id), ("reminder_text", r.reminder_text),
        ("importance", r.importance)]

/-- `CalendarEventResponse.from_orm(event).dict()`, timestamps in ISO form. -/
def eventToJson (e : EventRow) : Json :=
  .obj [("id", .num e.id), ("title", e.title), ("description", e.description),
        ("event_from", .str (isoString e.event_from)),
        ("event_to", .str (isoString e.event_to))]

/- ### The ten request handlers (src/app.py)

Each handler is split into the tool-call scan (`findCall`) and a body that
depends only on the found call's id and the outcome of argument parsing —
exactly the data the source uses past the loop. -/

/-- Body of `create_todo` past the scan: defaults, insert, acknowledge. -/
def createTodoBody (tcid : String) (ea : Except HttpError ArgsMap) (db : Store) :
    Except HttpError (VapiResponse × Store) :=
  match ea with
  | .error e => .error e
  | .ok args =>
    let title := argGetD args "title" (.str "")
    let description := argGetD args "description" (.str "")
    let todo : TodoRow := ⟨nextIdOf (db.todos.map (fun t => t.id)), title, description, false⟩
    .ok (singleResult tcid (.str "success"), { db with todos := db.todos ++ [todo] })

/-- POST `/create_todo/`. -/
def create_todo (req : VapiRequest) (db : Store) :
    Except HttpError (VapiResponse × Store) :=
  match findCall "createTodo" req.message.toolCalls with
  | none => .error ⟨400, "Invalid Request"⟩
  | some tc => createTodoBody tc.id (getArgs tc.function.arguments) db

/-- POST `/get_todos/`. -/
def get_todos (req : VapiRequest) (db : Store) :
    Except HttpError (VapiResponse × Store) :=
  match findCall "getTodos" req.message.toolCalls with
  | none => .error ⟨400, "Invalid Request"⟩
  | some tc => .ok (singleResult tc.id (.arr (db.todos.map todoToJson)), db)

/-- Body of `complete_todo` past the scan: falsy-id check, lookup, flag. -/
def completeTodoBody (tcid : String) (ea : Except HttpError ArgsMap) (db : Store) :
    Except HttpError (VapiResponse × Store) :=
  match ea with
  | .error e => .error e
  | .ok args =>
    let todo_id := argGetD args "id" .null
    if !truthy todo_id then .error ⟨400, "Missing To-Do ID"⟩
    else
      match db.todos.find? (fun t => idMatches t.id todo_id) with
      | none => .error ⟨404, "Todo not found"⟩
      | some _ =>
        .ok (singleResult tcid (.str "success"),
          { db with todos := (updateFirst (fun t => idMatches t.id todo_id)
              (fun t => { t with completed := true }) db.todos) })

/-- POST `/complete_todo/`. -/
def complete_todo (req : VapiRequest) (db : Store) :
    Except HttpError (VapiResponse × Store) :=
  match findCall "completeTodo" req.message.toolCalls with
  | none => .error ⟨400, "Invalid Request"⟩
  | some tc => completeTodoBody tc.id (getArgs tc.function.arguments) db

/-- Body of `delete_todo` past the scan: falsy-id check, lookup, remove. -/
def deleteTodoBody (tcid : String) (ea : Except HttpError ArgsMap) (db : Store) :
    Except HttpError (VapiResponse × Store) :=
  match ea with
  | .error e => .error e
  | .ok args =>
    let todo_id := argGetD args "id" .null
    if !truthy todo_id then .error ⟨400, "Missing To-Do ID"⟩
    else
      match db.todos.find? (fun t => idMatches t.id todo_id) with
      | none => .error ⟨404, "Todo not found"⟩
      | some _ =>
        .ok (singleResult tcid (.str "success"),
          { db with todos := removeFirst (fun t => idMatches t.id todo_id) db.todos })

/-- POST `/delete_todo/`. -/
def delete_todo (req : VapiRequest) (db : Store) :
    Except HttpError (VapiResponse × Store) :=
  match findCall "deleteTodo" req.message.toolCalls with
  | none => .error ⟨400, "Invalid Request"⟩
  | some tc => deleteTodoBody tc.id (getArgs tc.function.arguments) db

/-- Body of `add_reminder` past the scan: required-field check, insert. -/
def addReminderBody (tcid : String) (ea : Except HttpError ArgsMap) (db : Store) :
    Except HttpError (VapiResponse × Store) :=
  match ea with
  | .error e => .error e
  | .ok args =>
    let reminder_text := argGetD args "reminder_text" .null
    let importance := argGetD args "importance" .null
    if !truthy reminder_text || !truthy importance then
      .error ⟨400, "Missing required fields"⟩
    else
      let reminder : ReminderRow :=
        ⟨nextIdOf (db.reminders.map (fun r => r.id)), reminder_text, importance⟩
      .ok (singleResult tcid (reminderToJson reminder),
        { db with reminders := db.reminders ++ [reminder] })

/-- POST `/add_reminder/`. -/
def add_reminder (req : VapiRequest) (db : Store) :
    Except HttpError (VapiResponse × Store) :=
  match findCall "addReminder" req.message.toolCalls with
  | none => .error ⟨400, "Invalid request"⟩
  | some tc => addReminderBody tc.id (getArgs tc.function.arguments) db

/-- POST `/get_reminders/`. -/
def get_reminders (req : VapiRequest) (db : Store) :
    Except HttpError (VapiResponse × Store) :=
  match findCall "getReminders" req.message.toolCalls with
  | none => .error ⟨400, "Invalid request"⟩
  | some tc => .ok (singleResult tc.id (.arr (db.reminders.map reminderToJson)), db)

/-- Body of `delete_reminder` past the scan. -/
def deleteReminderBody (tcid : String) (ea : Except HttpError ArgsMap) (db : Store) :
    Except HttpError (VapiResponse × Store) :=
  match ea with
  | .error e => .error e
  | .ok args =>
    let reminder_id := argGetD args "id" .null
    if !truthy reminder_id then .error ⟨400, "Missing reminder ID"⟩
    else
      match db.reminders.find? (fun r => idMatches r.id reminder_id) with
      | none => .error ⟨404, "Reminder not found"⟩
      | some _ =>
        .ok (singleResult tcid (.obj [("id", reminder_id), ("deleted", .bool true)]),
          { db with reminders := removeFirst (fun r => idMatches r.id reminder_id) db.reminders })

/-- POST `/delete_reminder/`. -/
def delete_reminder (req : VapiRequest) (db : Store) :
    Except HttpError (VapiResponse × Store) :=
  match findCall "deleteReminder" req.message.toolCalls with
  | none => .error ⟨400, "Invalid request"⟩
  | some tc => deleteReminderBody tc.id (getArgs tc.function.arguments) db

/-- `fromisoformat` applied to a Python value: a non-string raises a
`TypeError` (500); an unparsable string raises `ValueError`, caught by the
handler and turned into the 400 date-format error. -/
def parseDateArg (v : Json) : Except HttpError PyDateTime :=
  match v with
  | .str s =>
    match parseIso s with
    | some t => .ok t
    | none => .error ⟨400, "Invalid date format. Use ISO format."⟩
  | _ => .error internalError

/-- Body of `add_calendar_entry` past the scan: required-field check,
timestamp parsing, insert. -/
def addCalendarEntryBody (tcid : String) (ea : Except HttpError ArgsMap) (db : Store) :
    Except HttpError (VapiResponse × Store) :=
  match ea with
  | .error e => .error e
  | .ok args =>
    let title := argGetD args "title" (.str "")
    let description := argGetD args "description" (.str "")
    let event_from_str := argGetD args "event_from" (.str "")
    let event_to_str := argGetD args "event_to" (.str "")
    if !truthy title || !truthy event_from_str || !truthy event_to_str then
      .error ⟨400, "Missing required fields"⟩
    else
      match parseDateArg event_from_str with
      | .error e => .error e
      | .ok event_from =>
        match parseDateArg event_to_str with
        | .error e => .error e
        | .ok event_to =>
          let calendar_event : EventRow :=
            ⟨nextIdOf (db.events.map (fun e => e.id)), title, description,
              event_from, event_to⟩
          .ok (singleResult tcid (eventToJson calendar_event),
            { db with events := db.events ++ [calendar_event] })

/-- POST `/add_calendar_entry/`. -/
def add_calendar_entry (req : VapiRequest) (db : Store) :
    Except HttpError (VapiResponse × Store) :=
  match findCall "addCalendarEntry" req.message.toolCalls with
  | none => .error ⟨400, "Invalid request"⟩
  | some tc => addCalendarEntryBody tc.id (getArgs tc.function.arguments) db

/-- POST `/get_calendar_entries/`. -/
def get_calendar_entries (req : VapiRequest) (db : Store) :
    Except HttpError (VapiResponse × Store) :=
  match findCall "getCalendarEntries" req.message.toolCalls with
  | none => .error ⟨400, "Invalid request"⟩
  | some tc => .ok (singleResult tc.id (.arr (db.events.map eventToJson)), db)

/-- Body of `delete_calendar_entry` past the scan. -/
def deleteCalendarEntryBody (tcid : String) (ea : Except HttpError ArgsMap) (db : Store) :
    Except HttpError (VapiResponse × Store) :=
  match ea with
  | .error e => .error e
  | .ok args =>
    let event_id := argGetD args "id" .null
    if !truthy event_id then .error ⟨400, "Missing event ID"⟩
    else
      match db.events.find? (fun e => idMatches e.id event_id) with
      | none => .error ⟨404, "Calendar event not found"⟩
      | some _ =>
        .ok (singleResult tcid (.obj [("id", event_id), ("deleted", .bool true)]),
          { db with events := removeFirst (fun e => idMatches e.id event_id) db.events })

/-- POST `/delete_calendar_entry/`. -/
def delete_calendar_entry (req : VapiRequest) (db : Store) :
    Except HttpError (VapiResponse × Store) :=
  match findCall "deleteCalendarEntry" req.message.toolCalls with
  | none => .error ⟨400, "Invalid request"⟩
  | some tc => deleteCalendarEntryBody tc.id (getArgs tc.function.arguments) db

/- ### Uniform dispatch over the ten endpoints -/

/-- The ten POST endpoints of the application. -/
inductive Endpoint where
  | createTodo
  | getTodos
  | completeTodo
  | deleteTodo
  | addReminder
  | getReminders
  | deleteReminder
  | addCalendarEntry
  | getCalendarEntries
  | deleteCalendarEntry
  deriving DecidableEq, Repr

/-- The fixed function-name constant each endpoint scans for. -/
def expectedName : Endpoint → String
  | .createTodo => "createTodo"
  | .getTodos => "getTodos"
  | .completeTodo => "completeTodo"
  | .deleteTodo => "deleteTodo"
  | .addReminder => "addReminder"
  | .getReminders => "getReminders"
  | .deleteReminder => "deleteReminder"
  | .addCalendarEntry => "addCalendarEntry"
  | .getCalendarEntries => "getCalendarEntries"
  | .deleteCalendarEntry => "deleteCalendarEntry"

/-- The `detail` string of the no-matching-tool-call 400 (the four Todo
handlers capitalise "Request", the others do not). -/
def invalidDetail : Endpoint → String
  | .createTodo => "Invalid Request"
  | .getTodos => "Invalid Request"
  | .completeTodo => "Invalid Request"
  | .deleteTodo => "Invalid Request"
  | _ => "Invalid request"

/-- Route a request to the handler of an endpoint. -/
def dispatch : Endpoint → VapiRequest → Store → Except HttpError (VapiResponse × Store)
  | .createTodo => create_todo
  | .getTodos => get_todos
  | .completeTodo => complete_todo
  | .deleteTodo => delete_todo
  | .addReminder => add_reminder
  | .getReminders => get_reminders
  | .deleteReminder => delete_reminder
  | .addCalendarEntry => add_calendar_entry
  | .getCalendarEntries => get_calendar_entries
  | .deleteCalendarEntry => delete_calendar_entry

/-- Outcome of one HTTP request: a success envelope or an error response. -/
inductive Outcome where
  | success (resp : VapiResponse)
  | failure (e : HttpError)

/-- A request's observable effect: its outcome and the store afterwards. -/
structure RunResult where
  outcome : Outcome
  store : Store

/-- Serve one request.  Every `HTTPException` in the source is raised before
the session commit, so an error leaves the store as it was. -/
def runEndpoint (ep : Endpoint) (req : VapiRequest) (db : Store) : RunResult :=
  match dispatch ep req db with
  | .ok (resp, db2) => ⟨.success resp, db2⟩
  | .error e => ⟨.failure e, db⟩

/-- A tool call with the given id, function name and arguments. -/
def mkCall (tcid name : String) (a : ArgVal) : ToolCall := ⟨tcid, ⟨name, a⟩⟩

/-- A request envelope around a list of tool calls. -/
def mkReq (calls : List ToolCall) : VapiRequest := ⟨⟨calls⟩⟩

/-- A single-call request carrying one `id` argument. -/
def idReq (tcid name : String) (v : Json) : VapiRequest :=
  mkReq [mkCall tcid name (.argObj [("id", v)])]

/- ### Entities, operation sequences and invariants -/

/-- The three persisted entity kinds. -/
inductive Entity where
  | todo
  | reminder
  | calendar
  deriving DecidableEq, Repr

/-- The list endpoint of an entity. -/
def getEp : Entity → Endpoint
  | .todo => .getTodos
  | .reminder => .getReminders
  | .calendar => .getCalendarEntries

/-- The number of rows in an entity's table. -/
def tableCount (db : Store) : Entity → Nat
  | .todo => db.todos.length
  | .reminder => db.reminders.length
  | .calendar => db.events.length

/-- The serialized full table of an entity, as its list endpoint returns it. -/
def serializeTable (db : Store) : Entity → List Json
  | .todo => db.todos.map todoToJson
  | .reminder => db.reminders.map reminderToJson
  | .calendar => db.events.map eventToJson

/-- A create or a delete operation. -/
inductive CrudKind where
  | create
  | del
  deriving DecidableEq, Repr

/-- The create/delete endpoint of an entity. -/
def crudEp : Entity → CrudKind → Endpoint
  | .todo, .create => .createTodo
  | .todo, .del => .deleteTodo
  | .reminder, .create => .addReminder
  | .reminder, .del => .deleteReminder
  | .calendar, .create => .addCalendarEntry
  | .calendar, .del => .deleteCalendarEntry

/-- Serve a sequence of create/delete requests against one entity,
requiring every request to succeed. -/
def runCruds (e : Entity) : List (CrudKind × VapiRequest) → Store → Option Store
  | [], db => some db
  | (k, req) :: rest, db =>
    match dispatch (crudEp e k) req db with
    | .ok (_, db2) => runCruds e rest db2
    | .error _ => none

/-- How many operations of a kind a sequence holds. -/
def countKind (k : CrudKind) : List (CrudKind × VapiRequest) → Nat
  | [] => 0
  | (k2, _) :: rest => (if k2 = k then 1 else 0) + countKind k rest

/-- Serve a sequence of arbitrary requests, keeping each request's
resulting store whether it succeeded or failed. -/
def runSeq : List (Endpoint × VapiRequest) → Store → Store
  | [], db => db
  | (ep, req) :: rest, db => runSeq rest (runEndpoint ep req db).store

/-- The data-model invariant the claims state: reminders carry non-empty
required fields, calendar events a non-empty title. -/
def storeInv (db : Store) : Prop :=
  (∀ r ∈ db.reminders, r.reminder_text ≠ Json.str "" ∧ r.importance ≠ Json.str "") ∧
  (∀ ev ∈ db.events, ev.title ≠ Json.str "")

/-- The relation between two tool calls that are identical except that the
first may carry its arguments as a JSON-encoded string of the object the
second carries natively. -/
def callRel (c1 c2 : ToolCall) : Prop :=
  c1.id = c2.id ∧ c1.function.name = c2.function.name ∧
    (c1.function.arguments = c2.function.arguments ∨
      ∃ s a, c1.function.arguments = .argStr s ∧ c2.function.arguments = .argObj a ∧
        Json.parse s = some (.obj a))

/- ### List helper lemmas -/

/-- A truthy value is in particular not the empty string. -/
theorem truthy_ne_empty_str {v : Json} (h : truthy v = true) : v ≠ .str "" := by
  intro hv
  subst hv
  simp [truthy] at h

/-- Removing an element only drops elements. -/
theorem mem_removeFirst {p : α → Bool} {l : List α} {x : α}
    (h : x ∈ removeFirst p l) : x ∈ l := by
  induction l with
  | nil => simp [removeFirst] at h
  | cons a as ih =>
    by_cases hp : p a
    · simp only [removeFirst, hp, if_pos] at h
      exact List.mem_cons_of_mem a h
    · simp only [removeFirst, hp, if_neg, Bool.false_eq_true, not_false_iff] at h
      rcases List.mem_cons.mp h with h | h
      · exact h ▸ List.mem_cons_self a as
      · exact List.mem_cons_of_mem a (ih h)

/-- When a match exists, `removeFirst` removes exactly one element. -/
theorem removeFirst_length {p : α → Bool} {l : List α} {x : α}
    (h : l.find? p = some x) : (removeFirst p l).length + 1 = l.length := by
  induction l with
  | nil => simp [List.find?] at h
  | cons a as ih =>
    by_cases hp : p a
    · simp [removeFirst, hp]
    · rw [List.find?_cons_of_neg _ hp] at h
      simp only [removeFirst, hp, if_neg, Bool.false_eq_true, not_false_iff, List.length_cons]
      rw [← ih h]

/-- `updateFirst` keeps the list length. -/
theorem updateFirst_length (p : α → Bool) (f : α → α) (l : List α) :
    (updateFirst p f l).length = l.length := by
  induction l with
  | nil => rfl
  | cons a as ih =>
    by_cases hp : p a <;> simp [updateFirst, hp, ih]

/-- If `f` does not change `p`-membership, updating the first match leaves a
first match that is its image. -/
theorem updateFirst_find? {p : α → Bool} {f : α → α} (hpf : ∀ x, p (f x) = p x)
    {l : List α} {x : α} (h : l.find? p = some x) :
    (updateFirst p f l).find? p = some (f x) := by
  induction l with
  | nil => simp [List.find?] at h
  | cons a as ih =>
    by_cases hp : p a
    · rw [List.find?_cons_of_pos _ hp] at h
      obtain rfl : a = x := by injection h
      simp only [updateFirst, hp, if_pos]
      exact List.find?_cons_of_pos _ ((hpf a).trans hp)
    · rw [List.find?_cons_of_neg _ hp] at h
      simp only [updateFirst, hp, if_neg, Bool.false_eq_true, not_false_iff]
      rw [List.find?_cons_of_neg _ hp]
      exact ih h

/-- Updating the first match twice is the same as once, for an idempotent
`p`-preserving update. -/
theorem updateFirst_idem {p : α → Bool} {f : α → α} (hpf : ∀ x, p (f x) = p x)
    (hff : ∀ x, f (f x) = f x) (l : List α) :
    updateFirst p f (updateFirst p f l) = updateFirst p f l := by
  induction l with
  | nil => rfl
  | cons a as ih =>
    by_cases hp : p a
    · simp [updateFirst, hp, hpf a, hff a]
    · simp [updateFirst, hp, ih]

/- ### Inversion lemmas: the shape of every successful handler run -/

/-- A successful `create_todo` found a matching call, answered with a
single-result envelope for it, and appended one row to `todos`. -/
theorem create_todo_ok {req : VapiRequest} {db : Store} {resp : VapiResponse} {db2 : Store}
    (h : create_todo req db = .ok (resp, db2)) :
    ∃ tc, findCall "createTodo" req.message.toolCalls = some tc ∧
      (∃ r, resp = singleResult tc.id r) ∧
      ∃ t : TodoRow, db2 = { db with todos := db.todos ++ [t] } := by
  unfold create_todo at h
  split at h
  · simp at h
  next tc hfc =>
    refine ⟨tc, hfc, ?_⟩
    unfold createTodoBody at h
    split at h
    · simp at h
    · simp only [Except.ok.injEq, Prod.mk.injEq] at h
      exact ⟨⟨_, h.1.symm⟩, _, h.2.symm⟩

/-- A successful `get_todos` found a matching call, answered it with the
whole serialized table, and left the store unchanged. -/
theorem get_todos_ok {req : VapiRequest} {db : Store} {resp : VapiResponse} {db2 : Store}
    (h : get_todos req db = .ok (resp, db2)) :
    ∃ tc, findCall "getTodos" req.message.toolCalls = some tc ∧
      resp = singleResult tc.id (.arr (db.todos.map todoToJson)) ∧ db2 = db := by
  unfold get_todos at h
  split at h
  · simp at h
  next tc hfc =>
    simp only [Except.ok.injEq, Prod.mk.injEq] at h
    exact ⟨tc, hfc, h.1.symm, h.2.symm⟩

/-- A successful `complete_todo` found a matching call, answered `success`,
and flagged the first row with the requested id. -/
theorem complete_todo_ok {req : VapiRequest} {db : Store} {resp : VapiResponse} {db2 : Store}
    (h : complete_todo req db = .ok (resp, db2)) :
    ∃ tc, findCall "completeTodo" req.message.toolCalls = some tc ∧
      (∃ r, resp = singleResult tc.id r) ∧
      ∃ v, db2 = { db with todos := (updateFirst (fun t => idMatches t.id v)
        (fun t => { t with completed := true }) db.todos) } := by
  unfold complete_todo at h
  split at h
  · simp at h
  next tc hfc =>
    refine ⟨tc, hfc, ?_⟩
    unfold completeTodoBody at h
    split at h
    · simp at h
    · simp only [] at h
      split at h
      · simp at h
      · split at h
        · simp at h
        · simp only [Except.ok.injEq, Prod.mk.injEq] at h
          exact ⟨⟨_, h.1.symm⟩, _, h.2.symm⟩

/-- A successful `delete_todo` found a matching call, found the referenced
row, answered `success`, and removed that row. -/
theorem delete_todo_ok {req : VapiRequest} {db : Store} {resp : VapiResponse} {db2 : Store}
    (h : delete_todo req db = .ok (resp, db2)) :
    ∃ tc, findCall "deleteTodo" req.message.toolCalls = some tc ∧
      (∃ r, resp = singleResult tc.id r) ∧
      ∃ v x, db.todos.find? (fun t => idMatches t.id v) = some x ∧
        db2 = { db with todos := removeFirst (fun t => idMatches t.id v) db.todos } := by
  unfold delete_todo at h
  split at h
  · simp at h
  next tc hfc =>
    refine ⟨tc, hfc, ?_⟩
    unfold deleteTodoBody at h
    split at h
    · simp at h
    · simp only [] at h
      split at h
      · simp at h
      · split at h
        · simp at h
        next x hfind =>
          simp only [Except.ok.injEq, Prod.mk.injEq] at h
          exact ⟨⟨_, h.1.symm⟩, _, x, hfind, h.2.symm⟩

/-- A successful `add_reminder` found a matching call and inserted one row
whose two required fields passed the truthiness check. -/
theorem add_reminder_ok {req : VapiRequest} {db : Store} {resp : VapiResponse} {db2 : Store}
    (h : add_reminder req db = .ok (resp, db2)) :
    ∃ tc, findCall "addReminder" req.message.toolCalls = some tc ∧
      (∃ r, resp = singleResult tc.id r) ∧
      ∃ rr : ReminderRow, truthy rr.reminder_text = true ∧ truthy rr.importance = true ∧
        db2 = { db with reminders := db.reminders ++ [rr] } := by
  unfold add_reminder at h
  split at h
  · simp at h
  next tc hfc =>
    refine ⟨tc, hfc, ?_⟩
    unfold addReminderBody at h
    split at h
    · simp at h
    · simp only [] at h
      split at h
      · simp at h
      next hcond =>
        simp only [Bool.or_eq_true, Bool.not_eq_eq_eq_not, Bool.not_true, not_or,
          Bool.not_eq_false] at hcond
        simp only [Except.ok.injEq, Prod.mk.injEq] at h
        exact ⟨⟨_, h.1.symm⟩, _, hcond.1, hcond.2, h.2.symm⟩

/-- A successful `get_reminders` answers with the whole serialized table and
leaves the store unchanged. -/
theorem get_reminders_ok {req : VapiRequest} {db : Store} {resp : VapiResponse} {db2 : Store}
    (h : get_reminders req db = .ok (resp, db2)) :
    ∃ tc, findCall "getReminders" req.message.toolCalls = some tc ∧
      resp = singleResult tc.id (.arr (db.reminders.map reminderToJson)) ∧ db2 = db := by
  unfold get_reminders at h
  split at h
  · simp at h
  next tc hfc =>
    simp only [Except.ok.injEq, Prod.mk.injEq] at h
    exact ⟨tc, hfc, h.1.symm, h.2.symm⟩

/-- A successful `delete_reminder` found the referenced row and removed it. -/
theorem delete_reminder_ok {req : VapiRequest} {db : Store} {resp : VapiResponse} {db2 : Store}
    (h : delete_reminder req db = .ok (resp, db2)) :
    ∃ tc, findCall "deleteReminder" req.message.toolCalls = some tc ∧
      (∃ r, resp = singleResult tc.id r) ∧
      ∃ v x, db.reminders.find? (fun r => idMatches r.id v) = some x ∧
        db2 = { db with reminders := removeFirst (fun r => idMatches r.id v) db.reminders } := by
  unfold delete_reminder at h
  split at h
  · simp at h
  next tc hfc =>
    refine ⟨tc, hfc, ?_⟩
    unfold deleteReminderBody at h
    split at h
    · simp at h
    · simp only [] at h
      split at h
      · simp at h
      · split at h
        · simp at h
        next x hfind =>
          simp only [Except.ok.injEq, Prod.mk.injEq] at h
          exact ⟨⟨_, h.1.symm⟩, _, x, hfind, h.2.symm⟩

/-- A successful `add_calendar_entry` found a matching call and inserted one
row whose title passed the truthiness check. -/
theorem add_calendar_entry_ok {req : VapiRequest} {db : Store} {resp : VapiResponse} {db2 : Store}
    (h : add_calendar_entry req db = .ok (resp, db2)) :
    ∃ tc, findCall "addCalendarEntry" req.message.toolCalls = some tc ∧
      (∃ r, resp = singleResult tc.id r) ∧
      ∃ ev : EventRow, truthy ev.title = true ∧
        db2 = { db with events := db.events ++ [ev] } := by
  unfold add_calendar_entry at h
  split at h
  · simp at h
  next tc hfc =>
    refine ⟨tc, hfc, ?_⟩
    unfold addCalendarEntryBody at h
    split at h
    · simp at h
    · simp only [] at h
      split at h
      · simp at h
      next hcond =>
        simp only [Bool.or_eq_true, Bool.not_eq_eq_eq_not, Bool.not_true, not_or,
          Bool.not_eq_false] at hcond
        split at h
        · simp at h
        · split at h
          · simp at h
          · simp only [Except.ok.injEq, Prod.mk.injEq] at h
            exact ⟨⟨_, h.1.symm⟩, _, hcond.1.1, h.2.symm⟩

/-- A successful `get_calendar_entries` answers with the whole serialized
table and leaves the store unchanged. -/
theorem get_calendar_entries_ok {req : VapiRequest} {db : Store} {resp : VapiResponse} {db2 : Store}
    (h : get_calendar_entries req db = .ok (resp, db2)) :
    ∃ tc, findCall "getCalendarEntries" req.message.toolCalls = some tc ∧
      resp = singleResult tc.id (.arr (db.events.map eventToJson)) ∧ db2 = db := by
  unfold get_calendar_entries at h
  split at h
  · simp at h
  next tc hfc =>
    simp only [Except.ok.injEq, Prod.mk.injEq] at h
    exact ⟨tc, hfc, h.1.symm, h.2.symm⟩

/-- A successful `delete_calendar_entry` found the referenced row and
removed it. -/
theorem delete_calendar_entry_ok {req : VapiRequest} {db : Store} {resp : VapiResponse} {db2 : Store}
    (h : delete_calendar_entry req db = .ok (resp, db2)) :
    ∃ tc, findCall "deleteCalendarEntry" req.message.toolCalls = some tc ∧
      (∃ r, resp = singleResult tc.id r) ∧
      ∃ v x, db.events.find? (fun e => idMatches e.id v) = some x ∧
        db2 = { db with events := removeFirst (fun e => idMatches e.id v) db.events } := by
  unfold delete_calendar_entry at h
  split at h
  · simp at h
  next tc hfc =>
    refine ⟨tc, hfc, ?_⟩
    unfold deleteCalendarEntryBody at h
    split at h
    · simp at h
    · simp only [] at h
      split at h
      · simp at h
      · split at h
        · simp at h
        next x hfind =>
          simp only [Except.ok.injEq, Prod.mk.injEq] at h
          exact ⟨⟨_, h.1.symm⟩, _, x, hfind, h.2.symm⟩

/- ### Lemmas for argument-representation equivalence -/

/-- Related tool calls parse to the same argument object. -/
theorem callRel_getArgs {c1 c2 : ToolCall} (h : callRel c1 c2) :
    getArgs c1.function.arguments = getArgs c2.function.arguments := by
  rcases h.2.2 with h3 | ⟨s, a, h1, h2, hp⟩
  · rw [h3]
  · rw [h1, h2]
    simp [getArgs, hp]

/-- Scanning two pointwise-related tool-call lists finds either nothing in
both or related calls in both. -/
theorem findCall_rel (n : String) {l1 l2 : List ToolCall}
    (h : List.Forall₂ callRel l1 l2) :
    (findCall n l1 = none ∧ findCall n l2 = none) ∨
    (∃ c1 c2, callRel c1 c2 ∧ findCall n l1 = some c1 ∧ findCall n l2 = some c2) := by
  induction h with
  | nil => left; constructor <;> rfl
  | @cons a b as bs hr hrest ih =>
    simp only [findCall] at ih ⊢
    by_cases hn : a.function.name == n
    · have hn2 : b.function.name == n := by rw [← hr.2.1]; exact hn
      right
      exact ⟨a, b, hr, List.find?_cons_of_pos _ hn, List.find?_cons_of_pos _ hn2⟩
    · have hn2 : ¬ (b.function.name == n) = true := by rw [← hr.2.1]; exact hn
      rw [List.find?_cons_of_neg (p := fun tc => tc.function.name == n) as hn,
        List.find?_cons_of_neg (p := fun tc => tc.function.name == n) bs hn2]
      exact ih

/- ### Step lemmas for operation sequences -/

/-- A successful create on an entity grows its table by exactly one row. -/
theorem create_step_count {e : Entity} {req : VapiRequest} {db : Store}
    {resp : VapiResponse} {db2 : Store}
    (h : dispatch (crudEp e .create) req db = .ok (resp, db2)) :
    tableCount db2 e = tableCount db e + 1 := by
  cases e
  · obtain ⟨_, _, _, t, rfl⟩ := create_todo_ok h
    simp [tableCount]
  · obtain ⟨_, _, _, rr, _, _, rfl⟩ := add_reminder_ok h
    simp [tableCount]
  · obtain ⟨_, _, _, ev, _, rfl⟩ := add_calendar_entry_ok h
    simp [tableCount]

/-- A successful delete on an entity shrinks its table by exactly one row. -/
theorem delete_step_count {e : Entity} {req : VapiRequest} {db : Store}
    {resp : VapiResponse} {db2 : Store}
    (h : dispatch (crudEp e .del) req db = .ok (resp, db2)) :
    tableCount db2 e + 1 = tableCount db e := by
  cases e
  · obtain ⟨_, _, _, v, x, hfind, rfl⟩ := delete_todo_ok h
    simpa [tableCount] using removeFirst_length hfind
  · obtain ⟨_, _, _, v, x, hfind, rfl⟩ := delete_reminder_ok h
    simpa [tableCount] using removeFirst_length hfind
  · obtain ⟨_, _, _, v, x, hfind, rfl⟩ := delete_calendar_entry_ok h
    simpa [tableCount] using removeFirst_length hfind

/-- Row counting along a successful create/delete sequence. -/
theorem runCruds_count (e : Entity) (ops : List (CrudKind × VapiRequest)) :
    ∀ db0 db : Store, runCruds e ops db0 = some db →
      tableCount db e + countKind .del ops = tableCount db0 e + countKind .create ops := by
  induction ops with
  | nil =>
    intro db0 db h
    simp only [runCruds, Option.some.injEq] at h
    subst h
    simp [countKind]
  | cons op rest ih =>
    intro db0 db h
    obtain ⟨k, req⟩ := op
    simp only [runCruds] at h
    split at h
    · rename_i resp db1 hstep
      have hrest := ih _ _ h
      cases k
      · have hc := create_step_count hstep
        simp only [countKind] at hrest ⊢
        simp at hrest ⊢
        omega
      · have hc := delete_step_count hstep
        simp only [countKind] at hrest ⊢
        simp at hrest ⊢
        omega
    · exact absurd h (by simp)

/- ### Invariant preservation -/

/-- One served request, whatever its outcome, preserves the reminder and
calendar-event field invariants. -/
theorem runEndpoint_storeInv (ep : Endpoint) (req : VapiRequest) (db : Store)
    (h : storeInv db) : storeInv (runEndpoint ep req db).store := by
  unfold runEndpoint
  cases hd : dispatch ep req db with
  | error e => exact h
  | ok p =>
    obtain ⟨resp, db2⟩ := p
    show storeInv db2
    cases ep
    · obtain ⟨_, _, _, t, rfl⟩ := create_todo_ok hd
      exact h
    · obtain ⟨_, _, _, rfl⟩ := get_todos_ok hd
      exact h
    · obtain ⟨_, _, _, v, rfl⟩ := complete_todo_ok hd
      exact h
    · obtain ⟨_, _, _, v, x, _, rfl⟩ := delete_todo_ok hd
      exact h
    · obtain ⟨_, _, _, rr, h1, h2, rfl⟩ := add_reminder_ok hd
      refine ⟨?_, h.2⟩
      intro r hr
      rcases List.mem_append.mp hr with hr | hr
      · exact h.1 r hr
      · rcases List.mem_singleton.mp hr with rfl
        exact ⟨truthy_ne_empty_str h1, truthy_ne_empty_str h2⟩
    · obtain ⟨_, _, _, rfl⟩ := get_reminders_ok hd
      exact h
    · obtain ⟨_, _, _, v, x, _, rfl⟩ := delete_reminder_ok hd
      exact ⟨fun r hr => h.1 r (mem_removeFirst hr), h.2⟩
    · obtain ⟨_, _, _, ev, h1, rfl⟩ := add_calendar_entry_ok hd
      refine ⟨h.1, ?_⟩
      intro e he
      rcases List.mem_append.mp he with he | he
      · exact h.2 e he
      · rcases List.mem_singleton.mp he with rfl
        exact truthy_ne_empty_str h1
    · obtain ⟨_, _, _, rfl⟩ := get_calendar_entries_ok hd
      exact h
    · obtain ⟨_, _, _, v, x, _, rfl⟩ := delete_calendar_entry_ok hd
      exact ⟨h.1, fun e he => h.2 e (mem_removeFirst he)⟩

/-- A whole request sequence preserves the invariants. -/
theorem runSeq_storeInv (ops : List (Endpoint × VapiRequest)) :
    ∀ db : Store, storeInv db → storeInv (runSeq ops db) := by
  induction ops with
  | nil => intro db h; exact h
  | cons op rest ih =>
    intro db h
    obtain ⟨ep, req⟩ := op
    exact ih _ (runEndpoint_storeInv ep req db h)

/- ### Additional enumerations used by the claims -/

/-- The four endpoints that take an `id` argument. -/
inductive IdEndpoint where
  | completeT
  | deleteT
  | deleteR
  | deleteC
  deriving DecidableEq, Repr

/-- The endpoint behind each id-taking operation. -/
def idEpTo : IdEndpoint → Endpoint
  | .completeT => .completeTodo
  | .deleteT => .deleteTodo
  | .deleteR => .deleteReminder
  | .deleteC => .deleteCalendarEntry

/-- The missing-ID `detail` string of each id-taking endpoint. -/
def missingIdDetail : IdEndpoint → String
  | .completeT => "Missing To-Do ID"
  | .deleteT => "Missing To-Do ID"
  | .deleteR => "Missing reminder ID"
  | .deleteC => "Missing event ID"

/- ### The claims -/

/-- C1 counterexample: a `/create_todo/` request whose arguments lack
`title` does not fail — it succeeds with the `"success"` payload and
persists one Todo row (with empty title), starting from the empty store. -/
theorem c1_missing_title_accepted :
    runEndpoint .createTodo (mkReq [mkCall "call1" "createTodo" (.argObj [])]) emptyStore =
      ⟨.success (singleResult "call1" (.str "success")),
        ⟨[⟨1, .str "", .str "", false⟩], [], []⟩⟩ := rfl

/-- C1 (amended): `/create_todo/` does not validate `title`: a request
whose first `createTodo` tool call carries arguments lacking `title`
succeeds with the `"success"` payload and persists one Todo row whose
title is the empty string (and whose description is the supplied value or
the empty string). -/
theorem c1_missing_title_defaults (tcid : String) (a : ArgsMap) (db : Store)
    (h : argLookup a "title" = none) :
    runEndpoint .createTodo (mkReq [mkCall tcid "createTodo" (.argObj a)]) db =
      ⟨.success (singleResult tcid (.str "success")),
        { db with todos := db.todos ++
            [⟨nextIdOf (db.todos.map (fun t => t.id)), .str "",
              argGetD a "description" (.str ""), false⟩] }⟩ := by
  simp [runEndpoint, dispatch, create_todo, findCall, mkReq, mkCall, List.find?,
    createTodoBody, getArgs, argGetD, h]

/-- C1 witness: the amended theorem applied at a concrete titleless request. -/
theorem c1_missing_title_defaults_witness :
    runEndpoint .createTodo (mkReq [mkCall "w1" "createTodo" (.argObj [])]) emptyStore =
      ⟨.success (singleResult "w1" (.str "success")),
        { emptyStore with todos := emptyStore.todos ++
            [⟨nextIdOf (emptyStore.todos.map (fun t => t.id)), .str "",
              argGetD [] "description" (.str ""), false⟩] }⟩ :=
  c1_missing_title_defaults "w1" [] emptyStore rfl

/-- C2: for every one of the ten endpoints, a request whose `toolCalls`
list contains no entry with the endpoint's expected function name fails
with HTTP 400 (the handler's invalid-request detail) and leaves the store
unchanged, whatever other entries the list holds. -/
theorem c2_no_matching_call_400 (ep : Endpoint) (req : VapiRequest) (db : Store)
    (h : ∀ tc ∈ req.message.toolCalls, tc.function.name ≠ expectedName ep) :
    runEndpoint ep req db = ⟨.failure ⟨400, invalidDetail ep⟩, db⟩ := by
  have hf : findCall (expectedName ep) req.message.toolCalls = none := by
    simp only [findCall]
    exact List.find?_eq_none.mpr (fun tc htc => by simpa using h tc htc)
  cases ep <;>
    simp_all [runEndpoint, dispatch, create_todo, get_todos, complete_todo, delete_todo,
      add_reminder, get_reminders, delete_reminder, add_calendar_entry,
      get_calendar_entries, delete_calendar_entry, expectedName, invalidDetail]

/-- C2 witness: a `/create_todo/` request holding only a differently named
tool call is rejected with 400 on an unchanged store. -/
theorem c2_no_matching_call_400_witness :
    runEndpoint .createTodo (mkReq [mkCall "t9" "somethingElse" (.argObj [])]) emptyStore =
      ⟨.failure ⟨400, invalidDetail .createTodo⟩, emptyStore⟩ :=
  c2_no_matching_call_400 .createTodo _ emptyStore (by
    intro tc htc
    simp only [mkReq, mkCall, List.mem_singleton] at htc
    subst htc
    simp [expectedName])

/-- C9: on the four id-taking endpoints, an `id` argument that is present
but falsy — `0`, the empty string, `null` or any other falsy value — is
rejected with HTTP 400 and the endpoint's missing-ID message (never 404),
and the store is unchanged. -/
theorem c9_falsy_id_400 (iep : IdEndpoint) (tcid : String) (v : Json) (db : Store)
    (h : truthy v = false) :
    runEndpoint (idEpTo iep) (idReq tcid (expectedName (idEpTo iep)) v) db =
      ⟨.failure ⟨400, missingIdDetail iep⟩, db⟩ := by
  cases iep <;>
    simp [runEndpoint, dispatch, complete_todo, delete_todo, delete_reminder,
      delete_calendar_entry, idEpTo, expectedName, missingIdDetail, idReq, mkReq, mkCall,
      findCall, List.find?, completeTodoBody, deleteTodoBody, deleteReminderBody,
      deleteCalendarEntryBody, getArgs, argGetD, argLookup, h]

/-- C9 witness: the integer 0, the empty string and null are all rejected
with the missing-ID message on `/complete_todo/`. -/
theorem c9_falsy_id_400_witness :
    runEndpoint (idEpTo .completeT) (idReq "t1" (expectedName (idEpTo .completeT)) (.num 0))
        emptyStore = ⟨.failure ⟨400, missingIdDetail .completeT⟩, emptyStore⟩ ∧
    runEndpoint (idEpTo .deleteR) (idReq "t2" (expectedName (idEpTo .deleteR)) (.str ""))
        emptyStore = ⟨.failure ⟨400, missingIdDetail .deleteR⟩, emptyStore⟩ ∧
    runEndpoint (idEpTo .deleteC) (idReq "t3" (expectedName (idEpTo .deleteC)) .null)
        emptyStore = ⟨.failure ⟨400, missingIdDetail .deleteC⟩, emptyStore⟩ :=
  ⟨c9_falsy_id_400 .completeT "t1" (.num 0) emptyStore rfl,
   c9_falsy_id_400 .deleteR "t2" (.str "") emptyStore rfl,
   c9_falsy_id_400 .deleteC "t3" .null emptyStore rfl⟩

/-- C3: every successful response, from any of the ten endpoints, is a
`results` envelope holding exactly one entry, and that entry's
`toolCallId` is the id of the first tool call in the list whose function
name equals the endpoint's expected constant; later matching calls are
ignored (`findCall` is a first-match scan). -/
theorem c3_single_result_first_match (ep : Endpoint) (req : VapiRequest) (db : Store)
    (resp : VapiResponse) (db2 : Store) (h : dispatch ep req db = .ok (resp, db2)) :
    ∃ tc, findCall (expectedName ep) req.message.toolCalls = some tc ∧
      ∃ r, resp.results = [⟨tc.id, r⟩] := by
  cases ep
  · obtain ⟨tc, hfc, ⟨r, rfl⟩, -⟩ := create_todo_ok h
    exact ⟨tc, hfc, r, rfl⟩
  · obtain ⟨tc, hfc, rfl, -⟩ := get_todos_ok h
    exact ⟨tc, hfc, _, rfl⟩
  · obtain ⟨tc, hfc, ⟨r, rfl⟩, -⟩ := complete_todo_ok h
    exact ⟨tc, hfc, r, rfl⟩
  · obtain ⟨tc, hfc, ⟨r, rfl⟩, -⟩ := delete_todo_ok h
    exact ⟨tc, hfc, r, rfl⟩
  · obtain ⟨tc, hfc, ⟨r, rfl⟩, -⟩ := add_reminder_ok h
    exact ⟨tc, hfc, r, rfl⟩
  · obtain ⟨tc, hfc, rfl, -⟩ := get_reminders_ok h
    exact ⟨tc, hfc, _, rfl⟩
  · obtain ⟨tc, hfc, ⟨r, rfl⟩, -⟩ := delete_reminder_ok h
    exact ⟨tc, hfc, r, rfl⟩
  · obtain ⟨tc, hfc, ⟨r, rfl⟩, -⟩ := add_calendar_entry_ok h
    exact ⟨tc, hfc, r, rfl⟩
  · obtain ⟨tc, hfc, rfl, -⟩ := get_calendar_entries_ok h
    exact ⟨tc, hfc, _, rfl⟩
  · obtain ⟨tc, hfc, ⟨r, rfl⟩, -⟩ := delete_calendar_entry_ok h
    exact ⟨tc, hfc, r, rfl⟩

/-- C3 witness: a concrete successful `/create_todo/` run, where the first
(and only) matching call's id names the single result. -/
theorem c3_single_result_first_match_witness :
    ∃ tc, findCall (expectedName .createTodo)
        (mkReq [mkCall "w3" "createTodo" (.argObj [("title", .str "x")])]).message.toolCalls =
          some tc ∧
      ∃ r, (singleResult "w3" (.str "success")).results = [⟨tc.id, r⟩] :=
  c3_single_result_first_match .createTodo
    (mkReq [mkCall "w3" "createTodo" (.argObj [("title", .str "x")])]) emptyStore
    (singleResult "w3" (.str "success")) ⟨[⟨1, .str "x", .str "", false⟩], [], []⟩ rfl

/-- C4: for every endpoint, a request whose tool calls carry arguments as a
JSON-encoded string of an object, and the request carrying those arguments
as the native object (pointwise `callRel`), produce the same outcome —
identical responses and identical final store states. -/
theorem c4_args_representation_equiv (ep : Endpoint) (db : Store)
    (l1 l2 : List ToolCall) (h : List.Forall₂ callRel l1 l2) :
    dispatch ep (mkReq l1) db = dispatch ep (mkReq l2) db := by
  cases ep
  case createTodo =>
    simp only [dispatch, create_todo, mkReq]
    rcases findCall_rel "createTodo" h with ⟨h1, h2⟩ | ⟨c1, c2, hr, h1, h2⟩
    · simp only [h1, h2]
    · simp only [h1, h2]
      rw [hr.1, callRel_getArgs hr]
  case getTodos =>
    simp only [dispatch, get_todos, mkReq]
    rcases findCall_rel "getTodos" h with ⟨h1, h2⟩ | ⟨c1, c2, hr, h1, h2⟩
    · simp only [h1, h2]
    · simp only [h1, h2]
      rw [hr.1]
  case completeTodo =>
    simp only [dispatch, complete_todo, mkReq]
    rcases findCall_rel "completeTodo" h with ⟨h1, h2⟩ | ⟨c1, c2, hr, h1, h2⟩
    · simp only [h1, h2]
    · simp only [h1, h2]
      rw [hr.1, callRel_getArgs hr]
  case deleteTodo =>
    simp only [dispatch, delete_todo, mkReq]
    rcases findCall_rel "deleteTodo" h with ⟨h1, h2⟩ | ⟨c1, c2, hr, h1, h2⟩
    · simp only [h1, h2]
    · simp only [h1, h2]
      rw [hr.1, callRel_getArgs hr]
  case addReminder =>
    simp only [dispatch, add_reminder, mkReq]
    rcases findCall_rel "addReminder" h with ⟨h1, h2⟩ | ⟨c1, c2, hr, h1, h2⟩
    · simp only [h1, h2]
    · simp only [h1, h2]
      rw [hr.1, callRel_getArgs hr]
  case getReminders =>
    simp only [dispatch, get_reminders, mkReq]
    rcases findCall_rel "getReminders" h with ⟨h1, h2⟩ | ⟨c1, c2, hr, h1, h2⟩
    · simp only [h1, h2]
    · simp only [h1, h2]
      rw [hr.1]
  case deleteReminder =>
    simp only [dispatch, delete_reminder, mkReq]
    rcases findCall_rel "deleteReminder" h with ⟨h1, h2⟩ | ⟨c1, c2, hr, h1, h2⟩
    · simp only [h1, h2]
    · simp only [h1, h2]
      rw [hr.1, callRel_getArgs hr]
  case addCalendarEntry =>
    simp only [dispatch, add_calendar_entry, mkReq]
    rcases findCall_rel "addCalendarEntry" h with ⟨h1, h2⟩ | ⟨c1, c2, hr, h1, h2⟩
    · simp only [h1, h2]
    · simp only [h1, h2]
      rw [hr.1, callRel_getArgs hr]
  case getCalendarEntries =>
    simp only [dispatch, get_calendar_entries, mkReq]
    rcases findCall_rel "getCalendarEntries" h with ⟨h1, h2⟩ | ⟨c1, c2, hr, h1, h2⟩
    · simp only [h1, h2]
    · simp only [h1, h2]
      rw [hr.1]
  case deleteCalendarEntry =>
    simp only [dispatch, delete_calendar_entry, mkReq]
    rcases findCall_rel "deleteCalendarEntry" h with ⟨h1, h2⟩ | ⟨c1, c2, hr, h1, h2⟩
    · simp only [h1, h2]
    · simp only [h1, h2]
      rw [hr.1, callRel_getArgs hr]

/-- C4 witness: a concrete `/add_reminder/` request with string-encoded
arguments behaves exactly as the one with the decoded object. -/
theorem c4_args_representation_equiv_witness :
    dispatch .addReminder (mkReq [mkCall "w4" "addReminder"
      (.argStr "\x7b\"reminder_text\": \"milk\", \"importance\": \"high\"\x7d")]) emptyStore =
    dispatch .addReminder (mkReq [mkCall "w4" "addReminder"
      (.argObj [("reminder_text", .str "milk"), ("importance", .str "high")])]) emptyStore :=
  c4_args_representation_equiv .addReminder emptyStore _ _
    (List.Forall₂.cons ⟨rfl, rfl, Or.inr ⟨_, _, rfl, rfl, rfl⟩⟩ List.Forall₂.nil)

/-- C5: on `/add_calendar_entry/`, `event_from` and `event_to` are
required — an absent or falsy value fails with 400 "Missing required
fields" — and they are parsed as ISO-8601 strings: when both are supplied
as non-empty strings (with a truthy title) and either one is malformed,
the endpoint fails with the 400 date-format error; in both failure cases
the store is unchanged, so no CalendarEvent row is persisted. -/
theorem c5_calendar_date_validation :
    (∀ (tcid : String) (a : ArgsMap) (db : Store),
      (truthy (argGetD a "event_from" (.str "")) = false ∨
        truthy (argGetD a "event_to" (.str "")) = false) →
      runEndpoint .addCalendarEntry (mkReq [mkCall tcid "addCalendarEntry" (.argObj a)]) db =
        ⟨.failure ⟨400, "Missing required fields"⟩, db⟩) ∧
    (∀ (tcid : String) (a : ArgsMap) (db : Store) (s1 s2 : String),
      truthy (argGetD a "title" (.str "")) = true →
      argLookup a "event_from" = some (.str s1) → s1 ≠ "" →
      argLookup a "event_to" = some (.str s2) → s2 ≠ "" →
      (parseIso s1 = none ∨ parseIso s2 = none) →
      runEndpoint .addCalendarEntry (mkReq [mkCall tcid "addCalendarEntry" (.argObj a)]) db =
        ⟨.failure ⟨400, "Invalid date format. Use ISO format."⟩, db⟩) := by
  constructor
  · intro tcid a db h
    rcases h with h | h <;>
      simp [runEndpoint, dispatch, add_calendar_entry, findCall, List.find?, mkReq, mkCall,
        addCalendarEntryBody, getArgs, h]
  · intro tcid a db s1 s2 htitle hef hs1 het hs2 hpar
    have hef2 : argGetD a "event_from" (.str "") = .str s1 := by simp [argGetD, hef]
    have het2 : argGetD a "event_to" (.str "") = .str s2 := by simp [argGetD, het]
    have ht1 : truthy (Json.str s1) = true := by simp [truthy, hs1]
    have ht2 : truthy (Json.str s2) = true := by simp [truthy, hs2]
    rcases hq : parseIso s1 with - | d
    · simp [runEndpoint, dispatch, add_calendar_entry, findCall, List.find?, mkReq, mkCall,
        addCalendarEntryBody, getArgs, hef2, het2, htitle, ht1, ht2, parseDateArg, hq]
    · rcases hpar with hp1 | hp2
      · simp [hq] at hp1
      · simp [runEndpoint, dispatch, add_calendar_entry, findCall, List.find?, mkReq, mkCall,
          addCalendarEntryBody, getArgs, hef2, het2, htitle, ht1, ht2, parseDateArg, hq, hp2]

/-- C5 witness: a well-formed `event_from` with `event_to = "not-a-date"`
is rejected with the date-format error and no row is persisted. -/
theorem c5_calendar_date_validation_witness :
    runEndpoint .addCalendarEntry (mkReq [mkCall "w5" "addCalendarEntry"
      (.argObj [("title", .str "meeting"), ("event_from", .str "2024-01-01T10:00:00"),
                ("event_to", .str "not-a-date")])]) emptyStore =
      ⟨.failure ⟨400, "Invalid date format. Use ISO format."⟩, emptyStore⟩ :=
  c5_calendar_date_validation.2 "w5" _ emptyStore "2024-01-01T10:00:00" "not-a-date"
    rfl rfl (by decide) rfl (by decide) (Or.inr rfl)

/-- C6: on `completeTodo`, `deleteTodo`, `deleteReminder` and
`deleteCalendarEntry`, a (non-zero integer) id absent from the
corresponding table yields HTTP 404 with the store unchanged — never a
silent no-op — and an id present in the table performs and persists the
mutation: the first matching Todo row gets `completed := true`, or the
first matching row is removed, with a success response. -/
theorem c6_absent_404_present_mutates :
    (∀ (tcid : String) (i : Int) (db : Store), i ≠ 0 → (∀ r ∈ db.todos, r.id ≠ i) →
      runEndpoint .completeTodo (idReq tcid "completeTodo" (.num i)) db =
        ⟨.failure ⟨404, "Todo not found"⟩, db⟩) ∧
    (∀ (tcid : String) (i : Int) (db : Store), i ≠ 0 → (∃ r ∈ db.todos, r.id = i) →
      runEndpoint .completeTodo (idReq tcid "completeTodo" (.num i)) db =
        ⟨.success (singleResult tcid (.str "success")),
          { db with todos := (updateFirst (fun t => idMatches t.id (.num i))
              (fun t => { t with completed := true }) db.todos) }⟩) ∧
    (∀ (tcid : String) (i : Int) (db : Store), i ≠ 0 → (∀ r ∈ db.todos, r.id ≠ i) →
      runEndpoint .deleteTodo (idReq tcid "deleteTodo" (.num i)) db =
        ⟨.failure ⟨404, "Todo not found"⟩, db⟩) ∧
    (∀ (tcid : String) (i : Int) (db : Store), i ≠ 0 → (∃ r ∈ db.todos, r.id = i) →
      runEndpoint .deleteTodo (idReq tcid "deleteTodo" (.num i)) db =
        ⟨.success (singleResult tcid (.str "success")),
          { db with todos := removeFirst (fun t => idMatches t.id (.num i)) db.todos }⟩) ∧
    (∀ (tcid : String) (i : Int) (db : Store), i ≠ 0 → (∀ r ∈ db.reminders, r.id ≠ i) →
      runEndpoint .deleteReminder (idReq tcid "deleteReminder" (.num i)) db =
        ⟨.failure ⟨404, "Reminder not found"⟩, db⟩) ∧
    (∀ (tcid : String) (i : Int) (db : Store), i ≠ 0 → (∃ r ∈ db.reminders, r.id = i) →
      runEndpoint .deleteReminder (idReq tcid "deleteReminder" (.num i)) db =
        ⟨.success (singleResult tcid (.obj [("id", .num i), ("deleted", .bool true)])),
          { db with reminders := removeFirst (fun r => idMatches r.id (.num i)) db.reminders }⟩) ∧
    (∀ (tcid : String) (i : Int) (db : Store), i ≠ 0 → (∀ ev ∈ db.events, ev.id ≠ i) →
      runEndpoint .deleteCalendarEntry (idReq tcid "deleteCalendarEntry" (.num i)) db =
        ⟨.failure ⟨404, "Calendar event not found"⟩, db⟩) ∧
    (∀ (tcid : String) (i : Int) (db : Store), i ≠ 0 → (∃ ev ∈ db.events, ev.id = i) →
      runEndpoint .deleteCalendarEntry (idReq tcid "deleteCalendarEntry" (.num i)) db =
        ⟨.success (singleResult tcid (.obj [("id", .num i), ("deleted", .bool true)])),
          { db with events := removeFirst (fun ev => idMatches ev.id (.num i)) db.events }⟩) := by
  refine ⟨?_, ?_, ?_, ?_, ?_, ?_, ?_, ?_⟩
  · intro tcid i db hi hrow
    have htr : truthy (Json.num i) = true := by simp [truthy, hi]
    have hfind : db.todos.find? (fun t => idMatches t.id (Json.num i)) = none :=
      List.find?_eq_none.mpr (fun r hr => by
        simp only [idMatches, beq_iff_eq]
        exact_mod_cast hrow r hr)
    simp [runEndpoint, dispatch, complete_todo, idReq, mkReq, mkCall, findCall, List.find?,
      completeTodoBody, getArgs, argGetD, argLookup, htr, hfind]
  · intro tcid i db hi hrow
    have htr : truthy (Json.num i) = true := by simp [truthy, hi]
    obtain ⟨r0, hr0, hid⟩ := hrow
    have hsome : (db.todos.find? (fun t => idMatches t.id (Json.num i))).isSome :=
      List.find?_isSome.mpr ⟨r0, hr0, by simp [idMatches, hid]⟩
    obtain ⟨x, hfind⟩ := Option.isSome_iff_exists.mp hsome
    simp [runEndpoint, dispatch, complete_todo, idReq, mkReq, mkCall, findCall, List.find?,
      completeTodoBody, getArgs, argGetD, argLookup, htr, hfind]
  · intro tcid i db hi hrow
    have htr : truthy (Json.num i) = true := by simp [truthy, hi]
    have hfind : db.todos.find? (fun t => idMatches t.id (Json.num i)) = none :=
      List.find?_eq_none.mpr (fun r hr => by
        simp only [idMatches, beq_iff_eq]
        exact_mod_cast hrow r hr)
    simp [runEndpoint, dispatch, delete_todo, idReq, mkReq, mkCall, findCall, List.find?,
      deleteTodoBody, getArgs, argGetD, argLookup, htr, hfind]
  · intro tcid i db hi hrow
    have htr : truthy (Json.num i) = true := by simp [truthy, hi]
    obtain ⟨r0, hr0, hid⟩ := hrow
    have hsome : (db.todos.find? (fun t => idMatches t.id (Json.num i))).isSome :=
      List.find?_isSome.mpr ⟨r0, hr0, by simp [idMatches, hid]⟩
    obtain ⟨x, hfind⟩ := Option.isSome_iff_exists.mp hsome
    simp [runEndpoint, dispatch, delete_todo, idReq, mkReq, mkCall, findCall, List.find?,
      deleteTodoBody, getArgs, argGetD, argLookup, htr, hfind]
  · intro tcid i db hi hrow
    have htr : truthy (Json.num i) = true := by simp [truthy, hi]
    have hfind : db.reminders.find? (fun t => idMatches t.id (Json.num i)) = none :=
      List.find?_eq_none.mpr (fun r hr => by
        simp only [idMatches, beq_iff_eq]
        exact_mod_cast hrow r hr)
    simp [runEndpoint, dispatch, delete_reminder, idReq, mkReq, mkCall, findCall, List.find?,
      deleteReminderBody, getArgs, argGetD, argLookup, htr, hfind]
  · intro tcid i db hi hrow
    have htr : truthy (Json.num i) = true := by simp [truthy, hi]
    obtain ⟨r0, hr0, hid⟩ := hrow
    have hsome : (db.reminders.find? (fun t => idMatches t.id (Json.num i))).isSome :=
      List.find?_isSome.mpr ⟨r0, hr0, by simp [idMatches, hid]⟩
    obtain ⟨x, hfind⟩ := Option.isSome_iff_exists.mp hsome
    simp [runEndpoint, dispatch, delete_reminder, idReq, mkReq, mkCall, findCall, List.find?,
      deleteReminderBody, getArgs, argGetD, argLookup, htr, hfind]
  · intro tcid i db hi hrow
    have htr : truthy (Json.num i) = true := by simp [truthy, hi]
    have hfind : db.events.find? (fun t => idMatches t.id (Json.num i)) = none :=
      List.find?_eq_none.mpr (fun r hr => by
        simp only [idMatches, beq_iff_eq]
        exact_mod_cast hrow r hr)
    simp [runEndpoint, dispatch, delete_calendar_entry, idReq, mkReq, mkCall, findCall, List.find?,
      deleteCalendarEntryBody, getArgs, argGetD, argLookup, htr, hfind]
  · intro tcid i db hi hrow
    have htr : truthy (Json.num i) = true := by simp [truthy, hi]
    obtain ⟨r0, hr0, hid⟩ := hrow
    have hsome : (db.events.find? (fun t => idMatches t.id (Json.num i))).isSome :=
      List.find?_isSome.mpr ⟨r0, hr0, by simp [idMatches, hid]⟩
    obtain ⟨x, hfind⟩ := Option.isSome_iff_exists.mp hsome
    simp [runEndpoint, dispatch, delete_calendar_entry, idReq, mkReq, mkCall, findCall, List.find?,
      deleteCalendarEntryBody, getArgs, argGetD, argLookup, htr, hfind]

/-- C6 witness: with one Todo row of id 1, completing id 2 yields 404 and
completing id 1 flags the row. -/
theorem c6_absent_404_present_mutates_witness :
    runEndpoint .completeTodo (idReq "w6" "completeTodo" (.num 2))
        ⟨[⟨1, .str "a", .str "", false⟩], [], []⟩ =
      ⟨.failure ⟨404, "Todo not found"⟩, ⟨[⟨1, .str "a", .str "", false⟩], [], []⟩⟩ ∧
    runEndpoint .completeTodo (idReq "w6b" "completeTodo" (.num 1))
        ⟨[⟨1, .str "a", .str "", false⟩], [], []⟩ =
      ⟨.success (singleResult "w6b" (.str "success")),
        { (⟨[⟨1, .str "a", .str "", false⟩], [], []⟩ : Store) with
            todos := (updateFirst (fun t => idMatches t.id (.num 1))
              (fun t => { t with completed := true })
              [⟨1, .str "a", .str "", false⟩]) }⟩ :=
  ⟨c6_absent_404_present_mutates.1 "w6" 2 _ (by decide)
      (by intro r hr; simp only [List.mem_singleton] at hr; subst hr; decide),
   c6_absent_404_present_mutates.2.1 "w6b" 1 _ (by decide)
      ⟨⟨1, .str "a", .str "", false⟩, List.mem_singleton.mpr rfl, rfl⟩⟩

/-- C7: `complete_todo` is idempotent: for a (non-zero integer) Todo id
present in the store, the first call succeeds, the second call with the
same id succeeds with the very same response and leaves the store exactly
as the first call left it (so no field of any row changes), and after each
call the first row with that id has `completed = true`. -/
theorem c7_complete_todo_idempotent (tcid : String) (i : Int) (db : Store)
    (hi : i ≠ 0) (hex : ∃ r ∈ db.todos, r.id = i) :
    ∃ resp1 db1,
      runEndpoint .completeTodo (idReq tcid "completeTodo" (.num i)) db =
        ⟨.success resp1, db1⟩ ∧
      runEndpoint .completeTodo (idReq tcid "completeTodo" (.num i)) db1 =
        ⟨.success resp1, db1⟩ ∧
      ∃ x, db1.todos.find? (fun t => idMatches t.id (.num i)) = some x ∧
        x.completed = true := by
  have htr : truthy (Json.num i) = true := by simp [truthy, hi]
  obtain ⟨r0, hr0, hid⟩ := hex
  have hsome : (db.todos.find? (fun t => idMatches t.id (Json.num i))).isSome :=
    List.find?_isSome.mpr ⟨r0, hr0, by simp [idMatches, hid]⟩
  obtain ⟨x, hfind⟩ := Option.isSome_iff_exists.mp hsome
  have hfind2 := updateFirst_find? (p := fun (t : TodoRow) => idMatches t.id (Json.num i))
    (f := fun t => { t with completed := true }) (fun _ => rfl) hfind
  have hidem := updateFirst_idem (p := fun (t : TodoRow) => idMatches t.id (Json.num i))
    (f := fun t => { t with completed := true }) (fun _ => rfl) (fun _ => rfl) db.todos
  refine ⟨singleResult tcid (.str "success"),
    { db with todos := (updateFirst (fun t => idMatches t.id (Json.num i))
        (fun t => { t with completed := true }) db.todos) }, ?_, ?_, ?_⟩
  · simp [runEndpoint, dispatch, complete_todo, idReq, mkReq, mkCall, findCall, List.find?,
      completeTodoBody, getArgs, argGetD, argLookup, htr, hfind]
  · simp [runEndpoint, dispatch, complete_todo, idReq, mkReq, mkCall, findCall, List.find?,
      completeTodoBody, getArgs, argGetD, argLookup, htr, hfind2, hidem]
  · exact ⟨{ x with completed := true }, hfind2, rfl⟩

/-- C7 witness: the idempotence statement at a store holding one
uncompleted Todo row of id 1. -/
theorem c7_complete_todo_idempotent_witness :
    ∃ resp1 db1,
      runEndpoint .completeTodo (idReq "w7" "completeTodo" (.num 1))
          ⟨[⟨1, .str "a", .str "", false⟩], [], []⟩ = ⟨.success resp1, db1⟩ ∧
      runEndpoint .completeTodo (idReq "w7" "completeTodo" (.num 1)) db1 =
        ⟨.success resp1, db1⟩ ∧
      ∃ x, db1.todos.find? (fun t => idMatches t.id (.num 1)) = some x ∧
        x.completed = true :=
  c7_complete_todo_idempotent "w7" 1 ⟨[⟨1, .str "a", .str "", false⟩], [], []⟩ (by decide)
    ⟨⟨1, .str "a", .str "", false⟩, List.mem_singleton.mpr rfl, rfl⟩

/-- C8: each `get_*` endpoint returns the whole table of its entity — on
success the store is untouched and the single result is the serialized
full table, whose length is the table's row count, empty on the empty
store — and any successful sequence of creates and deletes of one entity
starting from the empty store leaves exactly N − M rows (N creates,
M deletes, stated additively). -/
theorem c8_get_returns_all_rows :
    (∀ (e : Entity) (req : VapiRequest) (db : Store) (resp : VapiResponse) (db2 : Store),
      dispatch (getEp e) req db = .ok (resp, db2) →
        db2 = db ∧ ∃ tc, findCall (expectedName (getEp e)) req.message.toolCalls = some tc ∧
          resp = singleResult tc.id (.arr (serializeTable db e))) ∧
    (∀ (e : Entity) (db : Store), (serializeTable db e).length = tableCount db e) ∧
    (∀ e : Entity, serializeTable emptyStore e = []) ∧
    (∀ (e : Entity) (ops : List (CrudKind × VapiRequest)) (db : Store),
      runCruds e ops emptyStore = some db →
        tableCount db e + countKind .del ops = countKind .create ops) := by
  refine ⟨?_, ?_, ?_, ?_⟩
  · intro e req db resp db2 h
    cases e
    · obtain ⟨tc, hfc, rfl, rfl⟩ := get_todos_ok h
      exact ⟨rfl, tc, hfc, rfl⟩
    · obtain ⟨tc, hfc, rfl, rfl⟩ := get_reminders_ok h
      exact ⟨rfl, tc, hfc, rfl⟩
    · obtain ⟨tc, hfc, rfl, rfl⟩ := get_calendar_entries_ok h
      exact ⟨rfl, tc, hfc, rfl⟩
  · intro e db
    cases e <;> simp [serializeTable, tableCount]
  · intro e
    cases e <;> rfl
  · intro e ops db h
    have hcount := runCruds_count e ops emptyStore db h
    cases e <;> simpa [tableCount, emptyStore] using hcount

/-- C8 witness: a concrete `get_todos` success on a one-row store returns
that serialized table, and one successful create followed by one
successful delete of that todo leaves a count of 1 − 1 = 0. -/
theorem c8_get_returns_all_rows_witness :
    ((⟨[⟨1, .str "x", .str "", false⟩], [], []⟩ : Store) =
        ⟨[⟨1, .str "x", .str "", false⟩], [], []⟩ ∧
      ∃ tc, findCall (expectedName (getEp .todo))
          (mkReq [mkCall "w8" "getTodos" (.argObj [])]).message.toolCalls = some tc ∧
        singleResult "w8" (.arr (serializeTable ⟨[⟨1, .str "x", .str "", false⟩], [], []⟩ .todo)) =
          singleResult tc.id (.arr (serializeTable ⟨[⟨1, .str "x", .str "", false⟩], [], []⟩ .todo))) ∧
    tableCount emptyStore .todo +
        countKind .del [(.create, mkReq [mkCall "w8c" "createTodo" (.argObj [("title", .str "x")])]),
          (.del, idReq "w8d" "deleteTodo" (.num 1))] =
      countKind .create [(.create, mkReq [mkCall "w8c" "createTodo" (.argObj [("title", .str "x")])]),
          (.del, idReq "w8d" "deleteTodo" (.num 1))] :=
  ⟨c8_get_returns_all_rows.1 .todo (mkReq [mkCall "w8" "getTodos" (.argObj [])])
      ⟨[⟨1, .str "x", .str "", false⟩], [], []⟩
      (singleResult "w8" (.arr (serializeTable ⟨[⟨1, .str "x", .str "", false⟩], [], []⟩ .todo)))
      ⟨[⟨1, .str "x", .str "", false⟩], [], []⟩ rfl,
   c8_get_returns_all_rows.2.2.2 .todo
      [(.create, mkReq [mkCall "w8c" "createTodo" (.argObj [("title", .str "x")])]),
        (.del, idReq "w8d" "deleteTodo" (.num 1))] emptyStore rfl⟩

/-- C10: every reachable store state (any request sequence served from the
empty store) satisfies the invariant that reminder rows have non-empty
`reminder_text` and `importance` and calendar-event rows a non-empty
`title`; and a required field supplied as the empty string is rejected
with the very same 400 "Missing required fields" failure, unchanged store,
as when the field is absent. -/
theorem c10_required_fields_nonempty :
    (∀ ops : List (Endpoint × VapiRequest), storeInv (runSeq ops emptyStore)) ∧
    (∀ (tcid : String) (a : ArgsMap) (db : Store),
      (argLookup a "reminder_text" = some (.str "") ∨ argLookup a "reminder_text" = none) →
      runEndpoint .addReminder (mkReq [mkCall tcid "addReminder" (.argObj a)]) db =
        ⟨.failure ⟨400, "Missing required fields"⟩, db⟩) ∧
    (∀ (tcid : String) (a : ArgsMap) (db : Store),
      (argLookup a "importance" = some (.str "") ∨ argLookup a "importance" = none) →
      runEndpoint .addReminder (mkReq [mkCall tcid "addReminder" (.argObj a)]) db =
        ⟨.failure ⟨400, "Missing required fields"⟩, db⟩) ∧
    (∀ (tcid : String) (a : ArgsMap) (db : Store),
      (argLookup a "title" = some (.str "") ∨ argLookup a "title" = none) →
      runEndpoint .addCalendarEntry (mkReq [mkCall tcid "addCalendarEntry" (.argObj a)]) db =
        ⟨.failure ⟨400, "Missing required fields"⟩, db⟩) := by
  refine ⟨?_, ?_, ?_, ?_⟩
  · intro ops
    exact runSeq_storeInv ops emptyStore (by simp [storeInv, emptyStore])
  · intro tcid a db h
    have h2 : argGetD a "reminder_text" .null = .str "" ∨
        argGetD a "reminder_text" .null = .null := by
      rcases h with h | h <;> simp [argGetD, h]
    rcases h2 with h2 | h2 <;>
      simp [runEndpoint, dispatch, add_reminder, findCall, List.find?, mkReq, mkCall,
        addReminderBody, getArgs, h2, truthy]
  · intro tcid a db h
    have h2 : argGetD a "importance" .null = .str "" ∨
        argGetD a "importance" .null = .null := by
      rcases h with h | h <;> simp [argGetD, h]
    rcases h2 with h2 | h2 <;>
      simp [runEndpoint, dispatch, add_reminder, findCall, List.find?, mkReq, mkCall,
        addReminderBody, getArgs, h2, truthy]
  · intro tcid a db h
    have h2 : argGetD a "title" (.str "") = .str "" := by
      rcases h with h | h <;> simp [argGetD, h]
    simp [runEndpoint, dispatch, add_calendar_entry, findCall, List.find?, mkReq, mkCall,
      addCalendarEntryBody, getArgs, h2, truthy]

/-- C10 witness: an `addReminder` call with `reminder_text` supplied as the
empty string is rejected exactly like the claim states. -/
theorem c10_required_fields_nonempty_witness :
    runEndpoint .addReminder (mkReq [mkCall "w10" "addReminder"
      (.argObj [("reminder_text", .str ""), ("importance", .str "high")])]) emptyStore =
      ⟨.failure ⟨400, "Missing required fields"⟩, emptyStore⟩ :=
  c10_required_fields_nonempty.2.1 "w10"
    [("reminder_text", .str ""), ("importance", .str "high")] emptyStore (Or.inl rfl)

end VoiceAssistant
